import Mathlib

/-!
Verification development for the timeline-driven media composition engine
of the clip-editor repository (src agent-tools module: extractSegment,
concatenateSegments, overlayAudio, overlayImage, overlayText, composeVideo).

Times are modelled as rationals (seconds).  A decoded media file is a list
of video frames plus a list of decoded audio buffers.  The external
mediabunny library calls (Conversion trim, VideoSampleSink, AudioBufferSink)
are modelled by explicit list operations; the per-frame and per-sample logic
of the repository itself is translated statement by statement.
-/

deriving instance DecidableEq for Except

namespace ClipEditor

/-- `TimeRange` of the source (seconds).  `stop` embeds the source field
named `end`, which is a Lean keyword. -/
structure TimeRange where
  start : ℚ
  stop : ℚ
deriving DecidableEq, Repr

/-- A draw operation composited onto a frame by an overlay stage:
an image blitted at a rectangle, or a text box. -/
inductive DrawOp where
  | image (x y w h : ℚ)
  | text (s : String) (x y w h : ℚ)
deriving DecidableEq, Repr

/-- One decoded video frame: presentation timestamp, encoded duration
(`none` embeds a missing/undefined duration), an opaque content id for the
decoded pixels, and the list of overlay draw operations already composited
on top of the content (in application order). -/
structure VideoFrame where
  timestamp : ℚ
  duration : Option ℚ
  content : ℕ
  overlays : List DrawOp
deriving DecidableEq, Repr

/-- One decoded audio buffer (the unit yielded by AudioBufferSink):
its presentation timestamp, sample rate, and per-channel sample data. -/
structure AudioBuffer where
  timestamp : ℚ
  sampleRate : ℚ
  channels : List (List ℚ)
deriving DecidableEq, Repr

/-- An in-memory media container (video + optional audio).  An empty
`videoFrames` list embeds the absence of a primary video track. -/
structure MediaBuffer where
  videoFrames : List VideoFrame
  audioBuffers : List AudioBuffer
deriving DecidableEq, Repr

/-- A file stored in IndexedDB: id, display name, decodable media content,
and bitmap dimensions for when the file is consumed as an image
(createImageBitmap). -/
structure StoredFile where
  id : String
  name : String
  media : MediaBuffer
  imageWidth : ℚ
  imageHeight : ℚ
deriving DecidableEq, Repr

/-- The IndexedDB file store. -/
abbrev Storage := List StoredFile

/-- `VideoSegment` of the source. -/
structure VideoSegment where
  fileId : String
  fileName : String
  timeRange : TimeRange
deriving DecidableEq, Repr

/-- `AudioTrack` of the source; `volume` is optional with default 1.0. -/
structure AudioTrack where
  fileId : String
  fileName : String
  timeRange : TimeRange
  volume : Option ℚ
deriving DecidableEq, Repr

/-- `ImageOverlay` of the source; `scale` is optional with default 0.2. -/
structure ImageOverlay where
  fileId : String
  fileName : String
  position : String
  timeRange : TimeRange
  scale : Option ℚ
deriving DecidableEq, Repr

/-- `TextOverlay` of the source. -/
structure TextOverlay where
  text : String
  position : String
  timeRange : TimeRange
  fontSize : Option ℚ
  fontColor : Option String
  backgroundColor : Option String
  fontWeight : Option String
deriving DecidableEq, Repr

/-- `TimelineRow` of the source. -/
structure TimelineRow where
  timeInClip : TimeRange
  action : String
  videoAsset : Option VideoSegment
  audioAsset : Option AudioTrack
  imageOverlays : List ImageOverlay
  textOverlays : List TextOverlay
deriving DecidableEq, Repr

/-- `VideoComposition` of the source (defaults 1080 x 1920 at 30 fps). -/
structure VideoComposition where
  timeline : List TimelineRow
  outputFileName : String
  targetWidth : Option ℚ
  targetHeight : Option ℚ
  targetFps : Option ℚ
deriving DecidableEq, Repr

/-- JS `a.fileId || a.fileName`: the empty string is falsy, so an empty
`fileId` falls through to `fileName` (which may itself be empty). -/
def jsRefStr (fileId fileName : String) : String :=
  if fileId = "" then fileName else fileId

/-- The error message thrown by getFileFromStorage. -/
def notFoundMsg (ref : String) : String :=
  "File not found in storage: " ++ ref

/-- getFileFromStorage: look the reference up by id first, then by name,
and throw (here: return `Except.error`) when neither matches. -/
def getFileFromStorage (files : Storage) (ref : String) : Except String StoredFile :=
  match files.find? (fun f => f.id == ref) with
  | some f => Except.ok f
  | none =>
    match files.find? (fun f => f.name == ref) with
    | some f => Except.ok f
    | none => Except.error (notFoundMsg ref)

/-- The coordinate "strings" produced by getOverlayPosition: a numeric
template string (e.g. the interpolation of `targetWidth - scaledWidth -
padding`) or a non-numeric FFmpeg expression string. -/
inductive FFCoord where
  | num (q : ℚ)
  | expr (s : String)
deriving DecidableEq, Repr

/-- JS `parseFloat(x) || 0` applied to a coordinate string: a numeric string
parses to its value, a non-numeric FFmpeg expression parses to NaN which is
falsy and falls back to 0 (a parsed 0 also yields 0). -/
def parseFloatOr0 : FFCoord → ℚ
  | FFCoord.num q => q
  | FFCoord.expr _ => 0

/-- getOverlayPosition of the source: the switch over the position string,
with `scaledWidth = overlayWidth * scale`, `scaledHeight = overlayHeight *
scale` and `padding = 20`.  The center / top-center / bottom-center and
default arms return FFmpeg expression strings, the others numeric template
strings. -/
def getOverlayPosition (position : String) (targetWidth targetHeight : ℚ)
    (overlayWidth overlayHeight : ℚ) (scale : ℚ) : FFCoord × FFCoord :=
  let scaledWidth := overlayWidth * scale
  let scaledHeight := overlayHeight * scale
  let padding : ℚ := 20
  if position = "top-left" then
    (FFCoord.num padding, FFCoord.num padding)
  else if position = "top-right" then
    (FFCoord.num (targetWidth - scaledWidth - padding), FFCoord.num padding)
  else if position = "bottom-left" then
    (FFCoord.num padding, FFCoord.num (targetHeight - scaledHeight - padding))
  else if position = "bottom-right" then
    (FFCoord.num (targetWidth - scaledWidth - padding),
     FFCoord.num (targetHeight - scaledHeight - padding))
  else if position = "center" then
    (FFCoord.expr ("(main_w-overlay_w)/2"), FFCoord.expr ("(main_h-overlay_h)/2"))
  else if position = "top-center" then
    (FFCoord.expr ("(main_w-overlay_w)/2"), FFCoord.num padding)
  else if position = "bottom-center" then
    (FFCoord.expr ("(main_w-overlay_w)/2"), FFCoord.expr ("main_h-overlay_h-20"))
  else if position = "full-screen" then
    (FFCoord.num 0, FFCoord.num 0)
  else
    (FFCoord.expr ("(main_w-overlay_w)/2"), FFCoord.expr ("(main_h-overlay_h)/2"))

/-- JS `Math.max` on two numbers. -/
def jsMax (a b : ℚ) : ℚ :=
  if a ≤ b then b else a

theorem jsMax_eq_max (a b : ℚ) : jsMax a b = max a b := by
  rw [jsMax, max_def]

/-- `Math.max(frame.duration || 1 / 30, 1 / 60)`: an absent (undefined) or
zero frame duration is falsy and falls back to 1/30, and the result is
clamped below by 1/60.  This exact expression appears in the re-encode
loops of concatenateSegments, overlayAudio, overlayImage and overlayText. -/
def clampFrameDuration (d : Option ℚ) : ℚ :=
  jsMax (match d with
         | none => (1 : ℚ) / 30
         | some x => if x = 0 then (1 : ℚ) / 30 else x)
        ((1 : ℚ) / 60)

/-- Model of the external mediabunny `Conversion` with a trim option: the
decoded content whose timestamps lie in [start, stop) is kept and rebased to
zero.  No claim depends on the precise trim semantics. -/
def trimBuffer (b : MediaBuffer) (tr : TimeRange) : MediaBuffer :=
  { videoFrames :=
      (b.videoFrames.filter
        (fun f => decide (tr.start ≤ f.timestamp ∧ f.timestamp < tr.stop))).map
        (fun f => { f with timestamp := f.timestamp - tr.start }),
    audioBuffers :=
      (b.audioBuffers.filter
        (fun a => decide (tr.start ≤ a.timestamp ∧ a.timestamp < tr.stop))).map
        (fun a => { a with timestamp := a.timestamp - tr.start }) }

/-- extractSegment: resolve the asset in storage, then re-encode the
requested time range into a standalone buffer. -/
def extractSegment (files : Storage) (ref : String) (tr : TimeRange) :
    Except String MediaBuffer := do
  let sf ← getFileFromStorage files ref
  Except.ok (trimBuffer sf.media tr)

/-- The overlayImage re-encode loop: frames are consumed in decode order,
the output timestamp cursor `t` starts at 0, the overlay is drawn onto the
canvas exactly when `start ≤ t ∧ t ≤ stop` (the source condition
`ts >= timeRange.start && ts <= timeRange.end` with `ts = t`), and the frame
is re-added at timestamp `t` with the clamped duration. -/
def overlayImageLoop (tr : TimeRange) (op : DrawOp) :
    ℚ → List VideoFrame → List VideoFrame
  | _, [] => []
  | t, f :: fs =>
    let d := clampFrameDuration f.duration
    let ovs := if tr.start ≤ t ∧ t ≤ tr.stop then f.overlays ++ [op] else f.overlays
    { timestamp := t, duration := some d, content := f.content, overlays := ovs }
      :: overlayImageLoop tr op (t + d) fs

/-- overlayImage: passthrough when the input has no primary video track;
otherwise resolve the image, compute the draw rectangle (`parseFloat(x) ||
0`, full canvas for full-screen, `bitmap * scale` otherwise) and re-encode
every frame, drawing the image during the overlay time range.  The audio
track, if present, is copied over. -/
def overlayImage (files : Storage) (videoBuf : MediaBuffer) (imageRef : String)
    (position : String) (tr : TimeRange) (scale : ℚ)
    (targetWidth targetHeight : ℚ) : Except String MediaBuffer :=
  if videoBuf.videoFrames = [] then Except.ok videoBuf
  else do
    let imgFile ← getFileFromStorage files imageRef
    let overlayW := imgFile.imageWidth
    let overlayH := imgFile.imageHeight
    let xy := getOverlayPosition position targetWidth targetHeight overlayW overlayH scale
    let drawW := if position = "full-screen" then targetWidth else overlayW * scale
    let drawH := if position = "full-screen" then targetHeight else overlayH * scale
    let op := DrawOp.image (parseFloatOr0 xy.1) (parseFloatOr0 xy.2) drawW drawH
    Except.ok { videoFrames := overlayImageLoop tr op 0 videoBuf.videoFrames,
                audioBuffers := videoBuf.audioBuffers }

/-- Model of canvas measureText width for the active font.  No claim
depends on this value; it only feeds the text box geometry. -/
def measuredTextWidth (text : String) (fontSize : ℚ) : ℚ :=
  fontSize * (text.length : ℚ) * (3 / 5)

/-- getTextPosition of the source (local helper of overlayText), over the
text box including its padding; `pad = 20`. -/
def getTextPosition (width height : ℚ) (pos : String) (boxW boxH : ℚ) : ℚ × ℚ :=
  let pad : ℚ := 20
  if pos = "top-left" then (pad, pad)
  else if pos = "top-right" then (width - boxW - pad, pad)
  else if pos = "bottom-left" then (pad, height - boxH - pad)
  else if pos = "bottom-right" then (width - boxW - pad, height - boxH - pad)
  else if pos = "top-center" then ((width - boxW) / 2, pad)
  else if pos = "bottom-center" then ((width - boxW) / 2, height - boxH - pad)
  else ((width - boxW) / 2, (height - boxH) / 2)

/-- The overlayText re-encode loop; structurally identical to the
overlayImage loop (same cursor, same in-range test `t >= start && t <= end`,
same clamped duration). -/
def overlayTextLoop (tr : TimeRange) (op : DrawOp) :
    ℚ → List VideoFrame → List VideoFrame
  | _, [] => []
  | t, f :: fs =>
    let d := clampFrameDuration f.duration
    let ovs := if tr.start ≤ t ∧ t ≤ tr.stop then f.overlays ++ [op] else f.overlays
    { timestamp := t, duration := some d, content := f.content, overlays := ovs }
      :: overlayTextLoop tr op (t + d) fs

/-- overlayText: passthrough without a video track; otherwise measure the
text (box = measured text + 24 horizontal / 16 vertical padding), place it
with getTextPosition, and re-encode every frame drawing the box + text
during the overlay time range.  Audio is copied over. -/
def overlayText (videoBuf : MediaBuffer) (tx : TextOverlay)
    (targetWidth targetHeight : ℚ) : Except String MediaBuffer :=
  if videoBuf.videoFrames = [] then Except.ok videoBuf
  else
    let fontSize := tx.fontSize.getD 48
    let w := measuredTextWidth tx.text fontSize
    let h := fontSize * (7 / 5)
    let xy := getTextPosition targetWidth targetHeight tx.position (w + 24) (h + 16)
    let op := DrawOp.text tx.text xy.1 xy.2 (w + 24) (h + 16)
    Except.ok { videoFrames := overlayTextLoop tx.timeRange op 0 videoBuf.videoFrames,
                audioBuffers := videoBuf.audioBuffers }

/-- The per-buffer volume scaling of overlayAudio: a fresh buffer with the
same channel count, the same per-channel length and the same sample rate,
with `dst[i] = src[i] * volume` for every channel and sample index. -/
def scaleAudioBuffer (volume : ℚ) (b : AudioBuffer) : AudioBuffer :=
  { b with channels := b.channels.map (fun src => src.map (fun s => s * volume)) }

/-- Model of AudioBufferSink.buffers(start, stop): the decoded audio
buffers of the track lying in the requested range. -/
def sinkBuffersInRange (bufs : List AudioBuffer) (tr : TimeRange) : List AudioBuffer :=
  bufs.filter (fun a => decide (tr.start ≤ a.timestamp ∧ a.timestamp < tr.stop))

/-- The frame-for-frame video re-encode loop of overlayAudio (no drawing):
cursor from 0, clamped durations. -/
def reencodeLoop : ℚ → List VideoFrame → List VideoFrame
  | _, [] => []
  | t, f :: fs =>
    let d := clampFrameDuration f.duration
    { timestamp := t, duration := some d, content := f.content, overlays := f.overlays }
      :: reencodeLoop (t + d) fs

/-- overlayAudio: passthrough when the video has no primary video track;
otherwise resolve the audio asset (a hard error when it is missing),
re-encode the video frames unchanged, and attach the audio decoded over
`audioTimeRange`, each buffer scaled by `volume`. -/
def overlayAudio (files : Storage) (videoBuf : MediaBuffer) (audioRef : String)
    (audioTimeRange : TimeRange) (volume : ℚ) : Except String MediaBuffer :=
  if videoBuf.videoFrames = [] then Except.ok videoBuf
  else do
    let audioFile ← getFileFromStorage files audioRef
    let frames := reencodeLoop 0 videoBuf.videoFrames
    let scaled := (sinkBuffersInRange audioFile.media.audioBuffers audioTimeRange).map
      (scaleAudioBuffer volume)
    Except.ok { videoFrames := frames, audioBuffers := scaled }

/-- The concat frame loop for one segment: each decoded frame is appended
at the shared cursor `t` with the clamped duration, and the advanced cursor
is returned for the next segment. -/
def appendFramesAt : ℚ → List VideoFrame → List VideoFrame × ℚ
  | t, [] => ([], t)
  | t, f :: fs =>
    let d := clampFrameDuration f.duration
    let rest := appendFramesAt (t + d) fs
    ({ timestamp := t, duration := some d, content := f.content, overlays := f.overlays }
       :: rest.1, rest.2)

/-- The concat progress value per frame:
`Math.min(99, Math.floor(((s + frame.timestamp) / segments.length) * 100))`
over the SOURCE timestamp of the decoded frame. -/
def concatPct (len s : ℕ) (ts : ℚ) : ℤ :=
  min 99 (Int.floor ((((s : ℚ) + ts) / (len : ℚ)) * 100))

/-- The progress values reported while decoding one segment. -/
def concatSegmentPcts (len s : ℕ) (frames : List VideoFrame) : List ℤ :=
  frames.map (fun f => concatPct len s f.timestamp)

/-- The segment loop of concatenateSegments: video frames re-timed through
the shared cursor, audio buffers appended verbatim, progress values
collected in emission order. -/
def concatLoop (len : ℕ) : ℕ → ℚ → List MediaBuffer → List VideoFrame × List AudioBuffer × List ℤ
  | _, _, [] => ([], [], [])
  | s, t, seg :: rest =>
    let vf := appendFramesAt t seg.videoFrames
    let tail := concatLoop len (s + 1) vf.2 rest
    (vf.1 ++ tail.1, seg.audioBuffers ++ tail.2.1,
     concatSegmentPcts len s seg.videoFrames ++ tail.2.2)

/-- concatenateSegments: error on an empty list; a single segment is
returned as-is with no re-encode and no progress; otherwise all segments
are decoded through one canvas with a single timestamp cursor starting at
0, and a final 100 progress value is reported. -/
def concatenateSegments (segments : List MediaBuffer) :
    Except String (MediaBuffer × List ℤ) :=
  match segments with
  | [] => Except.error ("No segments to concatenate")
  | [a] => Except.ok (a, [])
  | _ =>
    let r := concatLoop segments.length 0 0 segments
    Except.ok ({ videoFrames := r.1, audioBuffers := r.2.1 }, r.2.2 ++ [100])

/-- A progress event `(stage, percent)` passed to onProgress. -/
abbrev Event := String × ℚ

/-- `baseProgress = 10 + (i / timeline.length) * 60` for row index `i`. -/
def rowBase (n i : ℕ) : ℚ :=
  10 + ((i : ℚ) / (n : ℚ)) * 60

/-- The event emitted for one extraction progress report of value `p`:
`baseProgress + (trimProgress / 100) * (60 / timeline.length)`. -/
def trimEvent (n i : ℕ) (p : ℕ) : Event :=
  ("Trimming segment " ++ toString (i + 1) ++ "/" ++ toString n
     ++ " (" ++ toString p ++ "%)",
   rowBase n i + ((p : ℚ) / 100) * (60 / (n : ℚ)))

/-- The image-overlay loop of composeVideo over one row: an overlay whose
reference does not yield an identifier is skipped with a console warning;
the others are applied in list order (scale default 0.2). -/
def applyImageOverlays (files : Storage) (tw th : ℚ) :
    List ImageOverlay → MediaBuffer → Except String MediaBuffer
  | [], seg => Except.ok seg
  | ov :: rest, seg =>
    let imageRef := jsRefStr ov.fileId ov.fileName
    if imageRef = "" then applyImageOverlays files tw th rest seg
    else
      match overlayImage files seg imageRef ov.position ov.timeRange
          (ov.scale.getD (1 / 5)) tw th with
      | Except.error e => Except.error e
      | Except.ok seg2 => applyImageOverlays files tw th rest seg2

/-- The text-overlay loop of composeVideo over one row, in list order. -/
def applyTextOverlays (tw th : ℚ) :
    List TextOverlay → MediaBuffer → Except String MediaBuffer
  | [], seg => Except.ok seg
  | tx :: rest, seg =>
    match overlayText seg tx tw th with
    | Except.error e => Except.error e
    | Except.ok seg2 => applyTextOverlays tw th rest seg2

/-- The post-extraction pipeline of one row: image overlays in list order,
then text overlays in list order, then (when audioAsset is present) the
audio replacement, invoked with `audioRef!` even when the reference is
empty (the source only warns in that case). -/
def rowPipeline (files : Storage) (tw th : ℚ) (row : TimelineRow)
    (trimmed : MediaBuffer) : Except String MediaBuffer :=
  match applyImageOverlays files tw th row.imageOverlays trimmed with
  | Except.error e => Except.error e
  | Except.ok s1 =>
    match applyTextOverlays tw th row.textOverlays s1 with
    | Except.error e => Except.error e
    | Except.ok s2 =>
      match row.audioAsset with
      | none => Except.ok s2
      | some aa =>
        overlayAudio files s2 (jsRefStr aa.fileId aa.fileName)
          aa.timeRange (aa.volume.getD 1)

/-- One row of the composeVideo loop, with its emitted events.

Faithful control flow: the base "Trimming segment" event is emitted first;
a row without videoAsset is skipped (result `none`); a present videoAsset
whose reference yields no identifier throws; otherwise the "Extracting"
event at `base + 2` is emitted, the segment is extracted (each external
trim progress report `p` emitting its mapped event), and the row pipeline
runs. -/
def processRow (files : Storage) (tw th : ℚ) (n i : ℕ) (row : TimelineRow)
    (trimReports : List ℕ) : Except String (Option MediaBuffer) × List Event :=
  let base := rowBase n i
  let ev0 : Event := ("Trimming segment " ++ toString (i + 1) ++ "/" ++ toString n, base)
  match row.videoAsset with
  | none => (Except.ok none, [ev0])
  | some va =>
    let videoRef := jsRefStr va.fileId va.fileName
    if videoRef = "" then
      (Except.error ("Timeline row " ++ toString (i + 1)
         ++ " missing video reference (fileId or fileName)"), [ev0])
    else
      let ev1 : Event := ("Extracting " ++ va.fileName, base + 2)
      match extractSegment files videoRef va.timeRange with
      | Except.error e => (Except.error e, [ev0, ev1])
      | Except.ok trimmed =>
        let trimEvs := trimReports.map (trimEvent n i)
        match rowPipeline files tw th row trimmed with
        | Except.error e => (Except.error e, [ev0, ev1] ++ trimEvs)
        | Except.ok seg => (Except.ok (some seg), [ev0, ev1] ++ trimEvs)

/-- The row loop of composeVideo: rows processed strictly in order, each
successful row appending its segment, skipped rows appending nothing, and
the first error aborting the loop. -/
def processRows (files : Storage) (tw th : ℚ) (n : ℕ) (oracle : List (List ℕ)) :
    ℕ → List TimelineRow → Except String (List MediaBuffer) × List Event
  | _, [] => (Except.ok [], [])
  | i, row :: rest =>
    let r := processRow files tw th n i row (oracle.getD i [])
    match r.1 with
    | Except.error e => (Except.error e, r.2)
    | Except.ok none =>
      let tail := processRows files tw th n oracle (i + 1) rest
      (tail.1, r.2 ++ tail.2)
    | Except.ok (some seg) =>
      let tail := processRows files tw th n oracle (i + 1) rest
      (match tail.1 with
       | Except.error e => Except.error e
       | Except.ok segs => Except.ok (seg :: segs), r.2 ++ tail.2)

/-- Step 3 of composeVideo: concatenate only when more than one processed
segment exists, otherwise take the single segment as the final file
(no concat progress in that case). -/
def combineStep : List MediaBuffer → Except String (MediaBuffer × List ℤ)
  | [] => Except.error ("No valid video segments found in timeline")
  | [s] => Except.ok (s, [])
  | s :: s2 :: rest => concatenateSegments (s :: s2 :: rest)

/-- The aggregate metadata of a successful composition. -/
structure ComposeData where
  fileName : String
  durationSeconds : ℚ
  segmentsProcessed : ℕ
deriving DecidableEq, Repr

/-- `ToolExecutionResult` of the source. -/
structure ToolExecutionResult where
  success : Bool
  message : String
  error : Option String
  data : Option ComposeData
deriving DecidableEq, Repr

/-- The observable outcome of one composeVideo invocation: the result, a
flag recording whether the final artifact was stored (fileStorage.addFile),
and the ordered list of progress events passed to onProgress. -/
structure ComposeOutcome where
  result : ToolExecutionResult
  published : Bool
  events : List Event
deriving DecidableEq, Repr

/-- The body of composeVideo up to the try/catch: validation (an empty
timeline throws), the row loop, the no-valid-segments check, the combine
step (events 70 and the mapped concat progress), then storing (85) and the
final 100.  `oracle` supplies the external per-row trim progress reports. -/
def composeRun (files : Storage) (comp : VideoComposition)
    (oracle : List (List ℕ)) : Except String (MediaBuffer × ComposeData) × List Event :=
  let ev0 : Event := ("Initializing", 0)
  let tw := comp.targetWidth.getD 1080
  let th := comp.targetHeight.getD 1920
  if comp.timeline = [] then (Except.error ("Timeline is empty"), [ev0])
  else
    let n := comp.timeline.length
    let ev1 : Event := ("Starting video processing", 5)
    let pr := processRows files tw th n oracle 0 comp.timeline
    match pr.1 with
    | Except.error e => (Except.error e, [ev0, ev1] ++ pr.2)
    | Except.ok segs =>
      match combineStep segs with
      | Except.error e =>
        (Except.error e,
         [ev0, ev1] ++ pr.2 ++ (if segs = [] then [] else [("Combining video segments", 70)]))
      | Except.ok fin =>
        let concatEvs := fin.2.map
          (fun p => ("Combining segments (" ++ toString p ++ "%)",
                     70 + ((p : ℚ) / 100) * 15))
        let data : ComposeData :=
          { fileName := comp.outputFileName,
            durationSeconds :=
              (match comp.timeline.getLast? with
               | some r => r.timeInClip.stop
               | none => 0),
            segmentsProcessed := segs.length }
        (Except.ok (fin.1, data),
         ([ev0, ev1] ++ pr.2 ++ [("Combining video segments", 70)]) ++ concatEvs
           ++ [("Saving final video to storage", 85), ("Video created successfully!", 100)])

/-- composeVideo: the try/catch wrapper.  A thrown error is caught and
returned as `success: false` with the generic failure message, nothing
having been stored; on success the final file is stored in IndexedDB and a
success result with the aggregate metadata is returned. -/
def composeVideo (files : Storage) (comp : VideoComposition)
    (oracle : List (List ℕ)) : ComposeOutcome :=
  match composeRun files comp oracle with
  | (Except.error e, evs) =>
    { result := { success := false, message := "Failed to compose video",
                  error := some e, data := none },
      published := false, events := evs }
  | (Except.ok r, evs) =>
    { result := { success := true,
                  message := "Video composed successfully! "
                    ++ toString r.2.segmentsProcessed ++ " segments processed.",
                  error := none, data := some r.2 },
      published := true, events := evs }

/-- Duration of a frame list as encoded in the container: the sum of the
frames' stored durations. -/
def framesDuration (fs : List VideoFrame) : ℚ :=
  (fs.map (fun f => f.duration.getD 0)).sum

/-- Duration of a media buffer (video track). -/
def videoDuration (b : MediaBuffer) : ℚ :=
  framesDuration b.videoFrames

/-- Boolean monotonicity check for a percent sequence. -/
def nonDecreasingQ : List ℚ → Bool
  | [] => true
  | [_] => true
  | a :: b :: rest => decide (a ≤ b) && nonDecreasingQ (b :: rest)



/-! ## Overlay application relation (claim C1) -/

/-- Relation between an input frame and its re-encoded output frame for one
overlay pass: either the output timestamp lies in the closed overlay window
and exactly the overlay operation was drawn on top, or it lies outside and
the frame content is unchanged. -/
def overlaidRel (tr : TimeRange) (op : DrawOp) (f g : VideoFrame) : Prop :=
  (tr.start ≤ g.timestamp ∧ g.timestamp ≤ tr.stop ∧ g.overlays = f.overlays ++ [op])
  ∨ (¬(tr.start ≤ g.timestamp ∧ g.timestamp ≤ tr.stop) ∧ g.overlays = f.overlays)

theorem overlayImageLoop_rel (tr : TimeRange) (op : DrawOp) :
    ∀ (fs : List VideoFrame) (t : ℚ),
      List.Forall₂ (overlaidRel tr op) fs (overlayImageLoop tr op t fs) := by
  intro fs
  induction fs with
  | nil => intro t; exact List.Forall₂.nil
  | cons f fs ih =>
    intro t
    by_cases hc : tr.start ≤ t ∧ t ≤ tr.stop
    · simp only [overlayImageLoop, if_pos hc]
      exact List.Forall₂.cons (Or.inl ⟨hc.1, hc.2, rfl⟩) (ih _)
    · simp only [overlayImageLoop, if_neg hc]
      exact List.Forall₂.cons (Or.inr ⟨hc, rfl⟩) (ih _)

theorem overlayTextLoop_rel (tr : TimeRange) (op : DrawOp) :
    ∀ (fs : List VideoFrame) (t : ℚ),
      List.Forall₂ (overlaidRel tr op) fs (overlayTextLoop tr op t fs) := by
  intro fs
  induction fs with
  | nil => intro t; exact List.Forall₂.nil
  | cons f fs ih =>
    intro t
    by_cases hc : tr.start ≤ t ∧ t ≤ tr.stop
    · simp only [overlayTextLoop, if_pos hc]
      exact List.Forall₂.cons (Or.inl ⟨hc.1, hc.2, rfl⟩) (ih _)
    · simp only [overlayTextLoop, if_neg hc]
      exact List.Forall₂.cons (Or.inr ⟨hc, rfl⟩) (ih _)

/-- C1: every image or text overlay pass draws the overlay on exactly the
re-encoded frames whose local (output) timestamp t satisfies
start ≤ t ≤ end, inclusive at both ends, and re-encodes every other frame
without the overlay. -/
theorem C1_overlay_drawn_iff_in_closed_time_window :
    (∀ (files : Storage) (buf : MediaBuffer) (imageRef position : String)
       (tr : TimeRange) (scale tw th : ℚ) (out : MediaBuffer),
       overlayImage files buf imageRef position tr scale tw th = Except.ok out →
       ∃ op, List.Forall₂ (overlaidRel tr op) buf.videoFrames out.videoFrames)
  ∧ (∀ (buf : MediaBuffer) (tx : TextOverlay) (tw th : ℚ) (out : MediaBuffer),
       overlayText buf tx tw th = Except.ok out →
       ∃ op, List.Forall₂ (overlaidRel tx.timeRange op) buf.videoFrames out.videoFrames) := by
  constructor
  · intro files buf imageRef position tr scale tw th out h
    by_cases hemp : buf.videoFrames = []
    · rw [overlayImage, if_pos hemp] at h
      cases h
      exact ⟨DrawOp.image 0 0 0 0, by rw [hemp]; exact List.Forall₂.nil⟩
    · rw [overlayImage, if_neg hemp] at h
      cases hg : getFileFromStorage files imageRef with
      | error e => rw [hg] at h; cases h
      | ok imgFile =>
        rw [hg] at h
        simp only [bind, Except.bind] at h
        cases h
        exact ⟨_, overlayImageLoop_rel _ _ _ _⟩
  · intro buf tx tw th out h
    by_cases hemp : buf.videoFrames = []
    · rw [overlayText, if_pos hemp] at h
      cases h
      exact ⟨DrawOp.image 0 0 0 0, by rw [hemp]; exact List.Forall₂.nil⟩
    · rw [overlayText, if_neg hemp] at h
      cases h
      exact ⟨_, overlayTextLoop_rel _ _ _ _⟩

def c1Files : Storage :=
  [⟨"logo", "logo.png", ⟨[], []⟩, 500, 500⟩]

def c1Buf : MediaBuffer :=
  ⟨[⟨0, some (1 / 30), 0, []⟩, ⟨1 / 30, some (1 / 30), 1, []⟩], []⟩

theorem C1_witness :
    ∃ out, overlayImage c1Files c1Buf "logo" "top-left" ⟨1 / 30, 1⟩ (1 / 5) 1080 1920
        = Except.ok out
      ∧ ∃ op, List.Forall₂ (overlaidRel ⟨1 / 30, 1⟩ op) c1Buf.videoFrames out.videoFrames := by
  have h : overlayImage c1Files c1Buf "logo" "top-left" ⟨1 / 30, 1⟩ (1 / 5) 1080 1920
      = Except.ok ⟨[⟨0, some (1 / 30), 0, []⟩,
                    ⟨1 / 30, some (1 / 30), 1, [DrawOp.image 20 20 100 100]⟩], []⟩ := by
    with_unfolding_all decide
  exact ⟨_, h, C1_overlay_drawn_iff_in_closed_time_window.1 c1Files c1Buf "logo" "top-left"
    ⟨1 / 30, 1⟩ (1 / 5) 1080 1920 _ h⟩

/-! ## Overlay anchor table (claim C7) -/

/-- C7 (code bug evidence): the corner anchors and full-screen follow the
anchor table with pad = 20 and scaled overlay size, but a "center" image
overlay is drawn at (0,0): getOverlayPosition returns the FFmpeg expression
strings for center, and `parseFloat(expression) || 0` collapses them to 0,
not to ((W-w)/2, (H-h)/2) (which is (490, 910) for a 1080x1920 canvas and a
500x500 bitmap at scale 0.2). -/
theorem C7_center_image_overlay_draws_at_origin :
    (parseFloatOr0 (getOverlayPosition "center" 1080 1920 500 500 (1 / 5)).1 = 0
     ∧ parseFloatOr0 (getOverlayPosition "center" 1080 1920 500 500 (1 / 5)).2 = 0)
  ∧ ((0 : ℚ) ≠ (1080 - 500 * (1 / 5)) / 2 ∧ (0 : ℚ) ≠ (1920 - 500 * (1 / 5)) / 2)
  ∧ (∀ W H w h s : ℚ,
       parseFloatOr0 (getOverlayPosition "top-left" W H w h s).1 = 20
     ∧ parseFloatOr0 (getOverlayPosition "top-left" W H w h s).2 = 20
     ∧ parseFloatOr0 (getOverlayPosition "top-right" W H w h s).1 = W - w * s - 20
     ∧ parseFloatOr0 (getOverlayPosition "top-right" W H w h s).2 = 20
     ∧ parseFloatOr0 (getOverlayPosition "bottom-left" W H w h s).1 = 20
     ∧ parseFloatOr0 (getOverlayPosition "bottom-left" W H w h s).2 = H - h * s - 20
     ∧ parseFloatOr0 (getOverlayPosition "bottom-right" W H w h s).1 = W - w * s - 20
     ∧ parseFloatOr0 (getOverlayPosition "bottom-right" W H w h s).2 = H - h * s - 20
     ∧ parseFloatOr0 (getOverlayPosition "full-screen" W H w h s).1 = 0
     ∧ parseFloatOr0 (getOverlayPosition "full-screen" W H w h s).2 = 0) := by
  refine ⟨⟨rfl, rfl⟩, ⟨by norm_num, by norm_num⟩, ?_⟩
  intro W H w h s
  refine ⟨rfl, rfl, ?_, rfl, rfl, ?_, ?_, ?_, rfl, rfl⟩ <;>
    simp [getOverlayPosition, parseFloatOr0]

/-! ## Empty timeline (claim C8) -/

/-- C8: compose on a timeline with zero rows fails up front: the result is
success false with the "Timeline is empty" validation message, nothing is
stored, and the only progress event emitted is the initial 0. -/
theorem C8_empty_timeline_fails_before_any_work :
    ∀ (files : Storage) (name : String) (tw th fps : Option ℚ) (oracle : List (List ℕ)),
      composeVideo files { timeline := [], outputFileName := name, targetWidth := tw,
                           targetHeight := th, targetFps := fps } oracle
        = { result := { success := false, message := "Failed to compose video",
                        error := some ("Timeline is empty"), data := none },
            published := false, events := [("Initializing", 0)] } := by
  intro files name tw th fps oracle
  rfl

/-! ## Single-segment fast path (claim C9) -/

/-- C9: concatenateSegments on a one-element list returns the very same
buffer with no re-encode and no concat progress, and the combine step of
composeVideo takes the same no-concat path when exactly one processed
segment exists. -/
theorem C9_single_segment_skips_concatenation :
    ∀ (a : MediaBuffer),
      concatenateSegments [a] = Except.ok (a, [])
      ∧ combineStep [a] = Except.ok (a, []) :=
  fun _ => ⟨rfl, rfl⟩

/-! ## Frame-duration clamping (claims C10, C2) -/

theorem oneSixty_le_clampFrameDuration (d : Option ℚ) :
    (1 : ℚ) / 60 ≤ clampFrameDuration d := by
  rw [clampFrameDuration.eq_def, jsMax_eq_max]
  exact le_max_right _ _

theorem clampFrameDuration_pos (d : Option ℚ) : 0 < clampFrameDuration d :=
  lt_of_lt_of_le (by norm_num) (oneSixty_le_clampFrameDuration d)

theorem clampFrameDuration_of_ge (x : ℚ) (hx : (1 : ℚ) / 60 ≤ x) :
    clampFrameDuration (some x) = x := by
  have hx0 : x ≠ 0 := by
    intro h
    rw [h] at hx
    norm_num at hx
  show jsMax (if x = 0 then (1 : ℚ) / 30 else x) ((1 : ℚ) / 60) = x
  rw [if_neg hx0, jsMax_eq_max]
  exact max_eq_left hx

theorem reencodeLoop_durations :
    ∀ (fs : List VideoFrame) (t : ℚ),
      List.Forall₂ (fun f g => g.duration = some (clampFrameDuration f.duration))
        fs (reencodeLoop t fs) := by
  intro fs
  induction fs with
  | nil => intro t; exact List.Forall₂.nil
  | cons f fs ih => intro t; exact List.Forall₂.cons rfl (ih _)

theorem overlayImageLoop_durations (tr : TimeRange) (op : DrawOp) :
    ∀ (fs : List VideoFrame) (t : ℚ),
      List.Forall₂ (fun f g => g.duration = some (clampFrameDuration f.duration))
        fs (overlayImageLoop tr op t fs) := by
  intro fs
  induction fs with
  | nil => intro t; exact List.Forall₂.nil
  | cons f fs ih =>
    intro t
    by_cases hc : tr.start ≤ t ∧ t ≤ tr.stop
    · simp only [overlayImageLoop, if_pos hc]
      exact List.Forall₂.cons rfl (ih _)
    · simp only [overlayImageLoop, if_neg hc]
      exact List.Forall₂.cons rfl (ih _)

theorem overlayTextLoop_durations (tr : TimeRange) (op : DrawOp) :
    ∀ (fs : List VideoFrame) (t : ℚ),
      List.Forall₂ (fun f g => g.duration = some (clampFrameDuration f.duration))
        fs (overlayTextLoop tr op t fs) := by
  intro fs
  induction fs with
  | nil => intro t; exact List.Forall₂.nil
  | cons f fs ih =>
    intro t
    by_cases hc : tr.start ≤ t ∧ t ≤ tr.stop
    · simp only [overlayTextLoop, if_pos hc]
      exact List.Forall₂.cons rfl (ih _)
    · simp only [overlayTextLoop, if_neg hc]
      exact List.Forall₂.cons rfl (ih _)

theorem appendFramesAt_durations :
    ∀ (fs : List VideoFrame) (t : ℚ),
      List.Forall₂ (fun f g => g.duration = some (clampFrameDuration f.duration))
        fs (appendFramesAt t fs).1 := by
  intro fs
  induction fs with
  | nil => intro t; exact List.Forall₂.nil
  | cons f fs ih => intro t; exact List.Forall₂.cons rfl (ih _)

/-- C10: in every re-encode loop (concatenateSegments, overlayAudio,
overlayImage, overlayText) the appended frame duration is
max(source duration, 1/60), with 1/30 substituted for absent or zero
source durations; hence no emitted frame is shorter than 1/60 s, and a
re-encoded output can be longer than its input when source frames are
shorter than 1/60 s (witnessed by a 1/100 s frame). -/
theorem C10_frame_duration_clamping :
    (∀ d, (1 : ℚ) / 60 ≤ clampFrameDuration d)
  ∧ clampFrameDuration none = 1 / 30
  ∧ clampFrameDuration (some 0) = 1 / 30
  ∧ (∀ x : ℚ, x ≠ 0 → clampFrameDuration (some x) = jsMax x (1 / 60))
  ∧ (∀ (fs : List VideoFrame) (t : ℚ),
       List.Forall₂ (fun f g => g.duration = some (clampFrameDuration f.duration))
         fs (reencodeLoop t fs))
  ∧ (∀ (tr : TimeRange) (op : DrawOp) (fs : List VideoFrame) (t : ℚ),
       List.Forall₂ (fun f g => g.duration = some (clampFrameDuration f.duration))
         fs (overlayImageLoop tr op t fs))
  ∧ (∀ (tr : TimeRange) (op : DrawOp) (fs : List VideoFrame) (t : ℚ),
       List.Forall₂ (fun f g => g.duration = some (clampFrameDuration f.duration))
         fs (overlayTextLoop tr op t fs))
  ∧ (∀ (fs : List VideoFrame) (t : ℚ),
       List.Forall₂ (fun f g => g.duration = some (clampFrameDuration f.duration))
         fs (appendFramesAt t fs).1)
  ∧ framesDuration [⟨0, some (1 / 100), 0, []⟩]
      < framesDuration (reencodeLoop 0 [⟨0, some (1 / 100), 0, []⟩]) := by
  refine ⟨oneSixty_le_clampFrameDuration, by with_unfolding_all decide,
    by with_unfolding_all decide, ?_, reencodeLoop_durations,
    overlayImageLoop_durations, overlayTextLoop_durations,
    appendFramesAt_durations, by with_unfolding_all decide⟩
  intro x hx
  show jsMax (if x = 0 then (1 : ℚ) / 30 else x) ((1 : ℚ) / 60) = jsMax x (1 / 60)
  rw [if_neg hx]

theorem C10_witness :
    clampFrameDuration (some (1 / 100)) = jsMax (1 / 100) (1 / 60) :=
  C10_frame_duration_clamping.2.2.2.1 (1 / 100) (by norm_num)

/-! ## Audio volume scaling (claim C3) -/

/-- C3: for volume in [0,1], overlayAudio attaches exactly the audio decoded
from the audio asset over audioTimeRange with every sample scaled linearly:
the output buffer list is the in-range decode mapped through
scaleAudioBuffer, and scaleAudioBuffer preserves the sample rate, the
channel count and each channel's length, writing volume * sample at every
position. -/
theorem C3_replace_audio_scales_every_sample :
    ∀ (files : Storage) (buf : MediaBuffer) (audioRef : String) (tr : TimeRange)
      (volume : ℚ) (af : StoredFile) (out : MediaBuffer),
      0 ≤ volume → volume ≤ 1 →
      buf.videoFrames ≠ [] →
      getFileFromStorage files audioRef = Except.ok af →
      overlayAudio files buf audioRef tr volume = Except.ok out →
      out.audioBuffers
          = (sinkBuffersInRange af.media.audioBuffers tr).map (scaleAudioBuffer volume)
      ∧ (∀ b : AudioBuffer,
           (scaleAudioBuffer volume b).sampleRate = b.sampleRate
           ∧ (scaleAudioBuffer volume b).timestamp = b.timestamp
           ∧ (scaleAudioBuffer volume b).channels.length = b.channels.length)
      ∧ (∀ (b : AudioBuffer) (ch : ℕ) (xs : List ℚ),
           b.channels[ch]? = some xs →
           (scaleAudioBuffer volume b).channels[ch]? = some (xs.map (fun s => s * volume))
           ∧ (xs.map (fun s => s * volume)).length = xs.length)
      ∧ (∀ (xs : List ℚ) (i : ℕ) (s : ℚ),
           xs[i]? = some s → (xs.map (fun x => x * volume))[i]? = some (volume * s)) := by
  intro files buf audioRef tr volume af out _ _ hemp haf h
  rw [overlayAudio, if_neg hemp, haf] at h
  simp only [bind, Except.bind] at h
  cases h
  refine ⟨rfl, fun b => ⟨rfl, rfl, by simp [scaleAudioBuffer]⟩, ?_, ?_⟩
  · intro b ch xs hc
    constructor
    · simp [scaleAudioBuffer, List.getElem?_map, hc]
    · simp
  · intro xs i s hs
    rw [List.getElem?_map, hs]
    simp [mul_comm]

def c3Files : Storage :=
  [⟨"a1", "song.mp3", ⟨[], [⟨0, 48000, [[1 / 2, -1 / 4], [1 / 3]]⟩]⟩, 0, 0⟩]

def c3Buf : MediaBuffer :=
  ⟨[⟨0, some (1 / 30), 0, []⟩], []⟩

theorem C3_witness :
    (⟨[⟨0, some (1 / 30), 0, []⟩],
      [⟨0, 48000, [[1 / 4, -1 / 8], [1 / 6]]⟩]⟩ : MediaBuffer).audioBuffers
      = (sinkBuffersInRange (⟨[], [⟨0, 48000, [[1 / 2, -1 / 4], [1 / 3]]⟩]⟩ :
            MediaBuffer).audioBuffers ⟨0, 1⟩).map (scaleAudioBuffer (1 / 2))
    ∧ (∀ b : AudioBuffer,
         (scaleAudioBuffer (1 / 2) b).sampleRate = b.sampleRate
         ∧ (scaleAudioBuffer (1 / 2) b).timestamp = b.timestamp
         ∧ (scaleAudioBuffer (1 / 2) b).channels.length = b.channels.length)
    ∧ (∀ (b : AudioBuffer) (ch : ℕ) (xs : List ℚ),
         b.channels[ch]? = some xs →
         (scaleAudioBuffer (1 / 2) b).channels[ch]? = some (xs.map (fun s => s * (1 / 2)))
         ∧ (xs.map (fun s => s * (1 / 2))).length = xs.length)
    ∧ (∀ (xs : List ℚ) (i : ℕ) (s : ℚ),
         xs[i]? = some s → (xs.map (fun x => x * (1 / 2)))[i]? = some (1 / 2 * s)) := by
  have h : overlayAudio c3Files c3Buf "a1" ⟨0, 1⟩ (1 / 2)
      = Except.ok ⟨[⟨0, some (1 / 30), 0, []⟩],
                   [⟨0, 48000, [[1 / 4, -1 / 8], [1 / 6]]⟩]⟩ := by
    with_unfolding_all rfl
  have haf : getFileFromStorage c3Files "a1"
      = Except.ok ⟨"a1", "song.mp3", ⟨[], [⟨0, 48000, [[1 / 2, -1 / 4], [1 / 3]]⟩]⟩, 0, 0⟩ := by
    with_unfolding_all rfl
  exact C3_replace_audio_scales_every_sample c3Files c3Buf "a1" ⟨0, 1⟩ (1 / 2) _ _
    (by norm_num) (by norm_num) (by simp [c3Buf]) haf h

/-! ## Concatenation timing (claim C2) -/

/-- Sum of the clamped durations of a frame list. -/
def clampSum (fs : List VideoFrame) : ℚ :=
  (fs.map (fun f => clampFrameDuration f.duration)).sum

/-- Sum of the clamped durations over a segment list. -/
def segsClampSum (segs : List MediaBuffer) : ℚ :=
  (segs.map (fun b => clampSum b.videoFrames)).sum

/-- Adjacency of consecutive output frames: the next frame starts exactly
where the previous one ends (zero gap, zero overlap) and strictly later. -/
def frameAdj (a b : VideoFrame) : Prop :=
  a.timestamp + a.duration.getD 0 = b.timestamp ∧ a.timestamp < b.timestamp

theorem appendFramesAt_snd (fs : List VideoFrame) :
    ∀ t, (appendFramesAt t fs).2 = t + clampSum fs := by
  induction fs with
  | nil => intro t; simp [appendFramesAt, clampSum]
  | cons f fs ih =>
    intro t
    simp only [appendFramesAt, clampSum, List.map_cons, List.sum_cons]
    rw [ih]
    rw [clampSum]
    ring

theorem appendFramesAt_framesDuration (fs : List VideoFrame) :
    ∀ t, framesDuration (appendFramesAt t fs).1 = clampSum fs := by
  induction fs with
  | nil => intro t; simp [appendFramesAt, framesDuration, clampSum]
  | cons f fs ih =>
    intro t
    simp only [appendFramesAt, framesDuration, clampSum, List.map_cons, List.sum_cons,
      Option.getD_some]
    rw [← framesDuration, ← clampSum, ih]

theorem appendFramesAt_head (fs : List VideoFrame) (t : ℚ) :
    ∀ g ∈ (appendFramesAt t fs).1.head?, g.timestamp = t := by
  cases fs with
  | nil => intro g hg; simp [appendFramesAt] at hg
  | cons f fs =>
    intro g hg
    simp only [appendFramesAt, List.head?_cons, Option.mem_def, Option.some.injEq] at hg
    rw [← hg]

theorem appendFramesAt_duration_pos (fs : List VideoFrame) :
    ∀ t, ∀ g ∈ (appendFramesAt t fs).1, 0 < g.duration.getD 0 := by
  induction fs with
  | nil => intro t g hg; simp [appendFramesAt] at hg
  | cons f fs ih =>
    intro t g hg
    simp only [appendFramesAt, List.mem_cons] at hg
    rcases hg with hg | hg
    · rw [hg]
      simpa using clampFrameDuration_pos f.duration
    · exact ih _ g hg

theorem appendFramesAt_chain (fs : List VideoFrame) :
    ∀ t, List.Chain' frameAdj (appendFramesAt t fs).1 := by
  induction fs with
  | nil => intro t; simp [appendFramesAt]
  | cons f fs ih =>
    intro t
    refine List.chain'_cons'.mpr ⟨?_, ih _⟩
    intro y hy
    have hts := appendFramesAt_head fs (t + clampFrameDuration f.duration) y hy
    constructor
    · simpa using hts.symm
    · rw [hts]
      simpa using lt_add_of_pos_right t (clampFrameDuration_pos f.duration)

theorem appendFramesAt_getLast (fs : List VideoFrame) :
    ∀ t, ∀ g ∈ (appendFramesAt t fs).1.getLast?,
      g.timestamp + g.duration.getD 0 = (appendFramesAt t fs).2 := by
  induction fs with
  | nil => intro t g hg; simp [appendFramesAt] at hg
  | cons f fs ih =>
    intro t g hg
    cases hfs : fs with
    | nil =>
      subst hfs
      simp only [appendFramesAt, List.getLast?_singleton, Option.mem_def,
        Option.some.injEq] at hg
      rw [← hg]
      simp [appendFramesAt]
    | cons f2 fs2 =>
      subst hfs
      have hcons : (appendFramesAt (t + clampFrameDuration f.duration) (f2 :: fs2)).1
          = { timestamp := t + clampFrameDuration f.duration,
              duration := some (clampFrameDuration f2.duration), content := f2.content,
              overlays := f2.overlays }
            :: (appendFramesAt
                 (t + clampFrameDuration f.duration + clampFrameDuration f2.duration) fs2).1 :=
        rfl
      have hg2 : g ∈ ((appendFramesAt (t + clampFrameDuration f.duration) (f2 :: fs2)).1).getLast? := by
        have hsplit : (appendFramesAt t (f :: f2 :: fs2)).1
            = { timestamp := t, duration := some (clampFrameDuration f.duration),
                content := f.content, overlays := f.overlays }
              :: (appendFramesAt (t + clampFrameDuration f.duration) (f2 :: fs2)).1 := rfl
        rw [hsplit, hcons, List.getLast?_cons_cons] at hg
        rw [hcons]
        exact hg
      have hih := ih (t + clampFrameDuration f.duration) g hg2
      rw [hih]
      rfl

theorem concatLoop_framesDuration (segs : List MediaBuffer) :
    ∀ len s t, framesDuration (concatLoop len s t segs).1 = segsClampSum segs := by
  induction segs with
  | nil => intro len s t; simp [concatLoop, framesDuration, segsClampSum]
  | cons seg rest ih =>
    intro len s t
    simp only [concatLoop, segsClampSum, List.map_cons, List.sum_cons]
    rw [framesDuration, List.map_append, List.sum_append, ← framesDuration, ← framesDuration,
      appendFramesAt_framesDuration, ih, segsClampSum]

theorem concatLoop_head (segs : List MediaBuffer) :
    ∀ len s t, ∀ g ∈ (concatLoop len s t segs).1.head?, g.timestamp = t := by
  induction segs with
  | nil => intro len s t g hg; simp [concatLoop] at hg
  | cons seg rest ih =>
    intro len s t g hg
    simp only [concatLoop] at hg
    cases hsf : seg.videoFrames with
    | nil =>
      have h0 : (appendFramesAt t seg.videoFrames).1 = [] := by rw [hsf]; rfl
      have h2 : (appendFramesAt t seg.videoFrames).2 = t := by rw [hsf]; rfl
      rw [h0, List.nil_append] at hg
      have := ih len (s + 1) (appendFramesAt t seg.videoFrames).2 g hg
      rw [h2] at this
      exact this
    | cons f fs =>
      have h1 : (appendFramesAt t seg.videoFrames).1
          = { timestamp := t, duration := some (clampFrameDuration f.duration),
              content := f.content, overlays := f.overlays }
            :: (appendFramesAt (t + clampFrameDuration f.duration) fs).1 := by
        rw [hsf]; rfl
      rw [h1] at hg
      simp only [List.cons_append, List.head?_cons, Option.mem_def, Option.some.injEq] at hg
      rw [← hg]

theorem concatLoop_chain (segs : List MediaBuffer) :
    ∀ len s t, List.Chain' frameAdj (concatLoop len s t segs).1 := by
  induction segs with
  | nil => intro len s t; simp [concatLoop]
  | cons seg rest ih =>
    intro len s t
    simp only [concatLoop]
    refine List.Chain'.append (appendFramesAt_chain _ _) (ih _ _ _) ?_
    intro x hx y hy
    have hlast := appendFramesAt_getLast seg.videoFrames t x hx
    have hhead := concatLoop_head rest len (s + 1) _ y hy
    have hxmem : x ∈ (appendFramesAt t seg.videoFrames).1 := by
      rcases hx with hx
      exact List.mem_of_mem_getLast? hx
    have hpos := appendFramesAt_duration_pos seg.videoFrames t x hxmem
    constructor
    · rw [hlast, hhead]
    · rw [hhead, ← hlast]
      exact lt_add_of_pos_right _ hpos

theorem clampSum_eq_framesDuration (fs : List VideoFrame)
    (h : ∀ f ∈ fs, ∃ d, f.duration = some d ∧ (1 : ℚ) / 60 ≤ d) :
    clampSum fs = framesDuration fs := by
  induction fs with
  | nil => simp [clampSum, framesDuration]
  | cons f fs ih =>
    obtain ⟨d, hd, hle⟩ := h f (List.mem_cons_self f fs)
    simp only [clampSum, framesDuration, List.map_cons, List.sum_cons]
    rw [hd, clampFrameDuration_of_ge d hle, ← clampSum, ← framesDuration,
      ih (fun g hg => h g (List.mem_cons_of_mem f hg))]
    simp [hd]

/-- C2 amended: for two or more buffers whose frames all carry an explicit
duration of at least 1/60 s, concat produces an output whose video duration
equals the sum of the inputs' durations; the cursor starts at 0
(the first output frame has timestamp 0) and only advances: consecutive
output frames are exactly adjacent (next timestamp = previous timestamp +
previous duration) and strictly increasing, so there are no gaps and no
overlaps at all.  (Without the 1/60 bound the duration equality fails,
because each output frame duration is clamped up to 1/60.) -/
theorem C2_concat_duration_and_ordering :
    ∀ (segs : List MediaBuffer) (out : MediaBuffer) (pcts : List ℤ),
      2 ≤ segs.length →
      (∀ b ∈ segs, ∀ f ∈ b.videoFrames, ∃ d, f.duration = some d ∧ (1 : ℚ) / 60 ≤ d) →
      concatenateSegments segs = Except.ok (out, pcts) →
      videoDuration out = (segs.map videoDuration).sum
      ∧ List.Chain' frameAdj out.videoFrames
      ∧ (∀ g ∈ out.videoFrames.head?, g.timestamp = 0) := by
  intro segs out pcts hlen hdur h
  match segs, hlen with
  | a :: b :: rest, _ =>
    simp only [concatenateSegments] at h
    rw [Except.ok.injEq, Prod.mk.injEq] at h
    obtain ⟨hout, -⟩ := h
    subst hout
    refine ⟨?_, concatLoop_chain _ _ _ _, concatLoop_head _ _ _ _⟩
    show framesDuration (concatLoop (a :: b :: rest).length 0 0 (a :: b :: rest)).1 = _
    rw [concatLoop_framesDuration]
    rw [segsClampSum]
    congr 1
    refine List.map_congr_left ?_
    intro x hx
    rw [clampSum_eq_framesDuration x.videoFrames (hdur x hx)]
    rfl

/-- C2 counterexample: two buffers of two 1/600 s frames each; the
concatenated output has duration 4/60 s, not 4/600 s, because every output
frame duration is clamped up to 1/60 s. -/
theorem C2_counterexample :
    (concatenateSegments
        [⟨[⟨0, some (1 / 600), 0, []⟩, ⟨1 / 600, some (1 / 600), 1, []⟩], []⟩,
         ⟨[⟨0, some (1 / 600), 2, []⟩, ⟨1 / 600, some (1 / 600), 3, []⟩], []⟩]).map
        (fun r => videoDuration r.1)
      ≠ Except.ok
          (videoDuration ⟨[⟨0, some (1 / 600), 0, []⟩, ⟨1 / 600, some (1 / 600), 1, []⟩], []⟩
           + videoDuration ⟨[⟨0, some (1 / 600), 2, []⟩, ⟨1 / 600, some (1 / 600), 3, []⟩], []⟩) := by
  with_unfolding_all decide

def c2SegA : MediaBuffer :=
  ⟨[⟨0, some (1 / 30), 0, []⟩], []⟩

def c2SegB : MediaBuffer :=
  ⟨[⟨0, some (1 / 20), 1, []⟩], []⟩

theorem C2_witness :
    videoDuration ⟨[⟨0, some (1 / 30), 0, []⟩, ⟨1 / 30, some (1 / 20), 1, []⟩], []⟩
        = ([c2SegA, c2SegB].map videoDuration).sum
    ∧ List.Chain' frameAdj
        (⟨[⟨0, some (1 / 30), 0, []⟩, ⟨1 / 30, some (1 / 20), 1, []⟩], []⟩ :
          MediaBuffer).videoFrames
    ∧ (∀ g ∈ (⟨[⟨0, some (1 / 30), 0, []⟩, ⟨1 / 30, some (1 / 20), 1, []⟩], []⟩ :
          MediaBuffer).videoFrames.head?, g.timestamp = 0) := by
  have h : concatenateSegments [c2SegA, c2SegB]
      = Except.ok (⟨[⟨0, some (1 / 30), 0, []⟩, ⟨1 / 30, some (1 / 20), 1, []⟩], []⟩, [0, 50, 100]) := by
    with_unfolding_all rfl
  refine C2_concat_duration_and_ordering [c2SegA, c2SegB] _ _ (by norm_num) ?_ h
  intro b hb f hf
  simp only [c2SegA, c2SegB, List.mem_cons, List.not_mem_nil, or_false] at hb
  rcases hb with hb | hb <;> subst hb <;>
    simp only [List.mem_cons, List.not_mem_nil, or_false] at hf <;> rw [hf] <;>
    exact ⟨_, rfl, by norm_num⟩

/-! ## Reference validation behaviour (claim C5) -/

def c5Files : Storage :=
  [⟨"v1", "vid.mp4", ⟨[⟨0, some (1 / 30), 0, []⟩], []⟩, 0, 0⟩]

def c5Comp : VideoComposition :=
  { timeline := [{ timeInClip := ⟨0, 1⟩, action := "a",
                   videoAsset := some ⟨"v1", "vid.mp4", ⟨0, 1⟩⟩,
                   audioAsset := none,
                   imageOverlays := [⟨"", "", "top-left", ⟨0, 1⟩, none⟩],
                   textOverlays := [] }],
    outputFileName := "out.mp4", targetWidth := none, targetHeight := none,
    targetFps := none }

/-- C5 counterexample: a timeline whose row carries an image overlay with an
unresolvable (empty) asset reference is NOT rejected with a validation
error: compose succeeds and publishes, silently skipping the overlay. -/
theorem C5_counterexample :
    (composeVideo c5Files c5Comp []).result.success = true
    ∧ (composeVideo c5Files c5Comp []).result.error = none
    ∧ (composeVideo c5Files c5Comp []).published = true := by
  refine ⟨?_, ?_, ?_⟩ <;> with_unfolding_all rfl

/-- C5 amended: there is no up-front reference validation.  A row whose
videoAsset is present but yields no identifier fails only when that row is
processed, with the "missing video reference" message; an image overlay
with no identifier is skipped with a console warning (the segment passes
through unchanged); an audioAsset with no identifier is warned about and
then fails downstream inside overlayAudio with the storage lookup error for
the empty reference. -/
theorem C5_unresolvable_reference_behaviour :
    (∀ (files : Storage) (tw th : ℚ) (n i : ℕ) (row : TimelineRow)
       (rep : List ℕ) (va : VideoSegment),
       row.videoAsset = some va →
       jsRefStr va.fileId va.fileName = "" →
       (processRow files tw th n i row rep).1
         = Except.error ("Timeline row " ++ toString (i + 1)
             ++ " missing video reference (fileId or fileName)"))
  ∧ (∀ (files : Storage) (tw th : ℚ) (ov : ImageOverlay) (rest : List ImageOverlay)
       (seg : MediaBuffer),
       jsRefStr ov.fileId ov.fileName = "" →
       applyImageOverlays files tw th (ov :: rest) seg
         = applyImageOverlays files tw th rest seg)
  ∧ (∀ (files : Storage) (buf : MediaBuffer) (tr : TimeRange) (vol : ℚ) (e : String),
       buf.videoFrames ≠ [] →
       getFileFromStorage files "" = Except.error e →
       overlayAudio files buf "" tr vol = Except.error e) := by
  refine ⟨?_, ?_, ?_⟩
  · intro files tw th n i row rep va hva href
    simp only [processRow, hva]
    rw [if_pos href]
  · intro files tw th ov rest seg href
    simp only [applyImageOverlays]
    rw [if_pos href]
  · intro files buf tr vol e hemp hlookup
    rw [overlayAudio, if_neg hemp, hlookup]
    rfl

theorem C5_witness :
    (processRow c5Files 1080 1920 1 0
        { timeInClip := ⟨0, 1⟩, action := "a",
          videoAsset := some ⟨"", "", ⟨0, 1⟩⟩, audioAsset := none,
          imageOverlays := [], textOverlays := [] } []).1
      = Except.error ("Timeline row " ++ toString (0 + 1)
          ++ " missing video reference (fileId or fileName)")
    ∧ applyImageOverlays c5Files 1080 1920 [⟨"", "", "top-left", ⟨0, 1⟩, none⟩]
        ⟨[⟨0, some (1 / 30), 0, []⟩], []⟩
      = applyImageOverlays c5Files 1080 1920 [] ⟨[⟨0, some (1 / 30), 0, []⟩], []⟩
    ∧ overlayAudio c5Files ⟨[⟨0, some (1 / 30), 0, []⟩], []⟩ "" ⟨0, 1⟩ 1
      = Except.error (notFoundMsg "") := by
  refine ⟨C5_unresolvable_reference_behaviour.1 c5Files 1080 1920 1 0 _ [] _ rfl rfl,
    C5_unresolvable_reference_behaviour.2.1 c5Files 1080 1920 _ [] _ rfl,
    C5_unresolvable_reference_behaviour.2.2 c5Files _ ⟨0, 1⟩ 1 (notFoundMsg "")
      (by simp) (by with_unfolding_all rfl)⟩

/-! ## Missing audio asset (claim C4) -/

theorem overlayAudio_lookup_error (files : Storage) (buf : MediaBuffer)
    (audioRef : String) (tr : TimeRange) (vol : ℚ) (e : String)
    (hemp : buf.videoFrames ≠ [])
    (hlookup : getFileFromStorage files audioRef = Except.error e) :
    overlayAudio files buf audioRef tr vol = Except.error e := by
  rw [overlayAudio, if_neg hemp, hlookup]
  rfl

theorem processRow_audio_error (files : Storage) (tw th : ℚ) (n i : ℕ)
    (row : TimelineRow) (rep : List ℕ) (va : VideoSegment)
    (trimmed s1 s2 : MediaBuffer) (aa : AudioTrack) (e : String)
    (hva : row.videoAsset = some va)
    (href : jsRefStr va.fileId va.fileName ≠ "")
    (hext : extractSegment files (jsRefStr va.fileId va.fileName) va.timeRange
      = Except.ok trimmed)
    (himg : applyImageOverlays files tw th row.imageOverlays trimmed = Except.ok s1)
    (htxt : applyTextOverlays tw th row.textOverlays s1 = Except.ok s2)
    (haa : row.audioAsset = some aa)
    (haud : overlayAudio files s2 (jsRefStr aa.fileId aa.fileName) aa.timeRange
      (aa.volume.getD 1) = Except.error e) :
    (processRow files tw th n i row rep).1 = Except.error e := by
  simp only [processRow, hva]
  rw [if_neg href, hext]
  simp only [rowPipeline, himg, htxt, haa, haud]

theorem processRows_append_error (files : Storage) (tw th : ℚ) (n : ℕ)
    (oracle : List (List ℕ)) :
    ∀ (pre : List TimelineRow) (i : ℕ) (row : TimelineRow) (suf : List TimelineRow)
      (segs : List MediaBuffer) (e : String),
      (processRows files tw th n oracle i pre).1 = Except.ok segs →
      (processRow files tw th n (i + pre.length) row
        (oracle.getD (i + pre.length) [])).1 = Except.error e →
      (processRows files tw th n oracle i (pre ++ row :: suf)).1 = Except.error e := by
  intro pre
  induction pre with
  | nil =>
    intro i row suf segs e _ hrow
    simp only [List.nil_append, processRows]
    simp only [List.length_nil, Nat.add_zero] at hrow
    rw [hrow]
  | cons p pre ih =>
    intro i row suf segs e hpre hrow
    simp only [List.cons_append]
    simp only [processRows] at hpre
    cases hp : (processRow files tw th n i p (oracle.getD i [])).1 with
    | error e2 => rw [hp] at hpre; cases hpre
    | ok o =>
      rw [hp] at hpre
      have hlen : i + 1 + pre.length = i + (p :: pre).length := by
        simp [List.length_cons]
        omega
      cases o with
      | none =>
        have hnext := ih (i + 1) row suf segs e hpre (by rw [hlen]; exact hrow)
        simp only [processRows, hp]
        exact hnext
      | some seg =>
        cases htail : (processRows files tw th n oracle (i + 1) pre).1 with
        | error e3 => rw [htail] at hpre; cases hpre
        | ok segs2 =>
          have hnext := ih (i + 1) row suf segs2 e htail (by rw [hlen]; exact hrow)
          simp only [processRows, hp, hnext]

theorem composeRun_rows_error (files : Storage) (comp : VideoComposition)
    (oracle : List (List ℕ)) (e : String)
    (hne : comp.timeline ≠ [])
    (h : (processRows files (comp.targetWidth.getD 1080) (comp.targetHeight.getD 1920)
      comp.timeline.length oracle 0 comp.timeline).1 = Except.error e) :
    composeRun files comp oracle
      = (Except.error e,
         [("Initializing", 0), ("Starting video processing", 5)]
           ++ (processRows files (comp.targetWidth.getD 1080) (comp.targetHeight.getD 1920)
                 comp.timeline.length oracle 0 comp.timeline).2) := by
  simp only [composeRun]
  rw [if_neg hne, h]

theorem composeVideo_failure_outcome (files : Storage) (comp : VideoComposition)
    (oracle : List (List ℕ)) (e : String) (evs : List Event)
    (h : composeRun files comp oracle = (Except.error e, evs)) :
    composeVideo files comp oracle
      = { result := { success := false, message := "Failed to compose video",
                      error := some e, data := none },
          published := false, events := evs } := by
  simp only [composeVideo, h]

/-- C4: when row processing reaches a row whose audioAsset reference does
not resolve in storage, overlayAudio's lookup failure aborts the whole
compose call: the result is success false carrying the storage
AssetNotFound message for that reference, and nothing is published or
stored. -/
theorem C4_missing_audio_asset_fails_hard :
    ∀ (files : Storage) (comp : VideoComposition) (oracle : List (List ℕ))
      (pre suf : List TimelineRow) (row : TimelineRow) (presegs : List MediaBuffer)
      (va : VideoSegment) (trimmed s1 s2 : MediaBuffer) (aa : AudioTrack),
      comp.timeline = pre ++ row :: suf →
      (processRows files (comp.targetWidth.getD 1080) (comp.targetHeight.getD 1920)
         comp.timeline.length oracle 0 pre).1 = Except.ok presegs →
      row.videoAsset = some va →
      jsRefStr va.fileId va.fileName ≠ "" →
      extractSegment files (jsRefStr va.fileId va.fileName) va.timeRange
        = Except.ok trimmed →
      applyImageOverlays files (comp.targetWidth.getD 1080) (comp.targetHeight.getD 1920)
        row.imageOverlays trimmed = Except.ok s1 →
      applyTextOverlays (comp.targetWidth.getD 1080) (comp.targetHeight.getD 1920)
        row.textOverlays s1 = Except.ok s2 →
      s2.videoFrames ≠ [] →
      row.audioAsset = some aa →
      getFileFromStorage files (jsRefStr aa.fileId aa.fileName)
        = Except.error (notFoundMsg (jsRefStr aa.fileId aa.fileName)) →
      (composeVideo files comp oracle).result.success = false
      ∧ (composeVideo files comp oracle).result.error
          = some (notFoundMsg (jsRefStr aa.fileId aa.fileName))
      ∧ (composeVideo files comp oracle).published = false := by
  intro files comp oracle pre suf row presegs va trimmed s1 s2 aa
    htl hpre hva href hext himg htxt hs2 haa hlookup
  have hne : comp.timeline ≠ [] := by
    rw [htl]
    exact List.append_ne_nil_of_right_ne_nil _ (List.cons_ne_nil _ _)
  have haud := overlayAudio_lookup_error files s2 (jsRefStr aa.fileId aa.fileName)
    aa.timeRange (aa.volume.getD 1) _ hs2 hlookup
  have hrow := processRow_audio_error files (comp.targetWidth.getD 1080)
    (comp.targetHeight.getD 1920) comp.timeline.length (0 + pre.length) row
    (oracle.getD (0 + pre.length) []) va trimmed s1 s2 aa _ hva href hext himg htxt haa haud
  have hrows := processRows_append_error files (comp.targetWidth.getD 1080)
    (comp.targetHeight.getD 1920) comp.timeline.length oracle pre 0 row suf presegs _
    hpre hrow
  rw [← htl] at hrows
  have hrun := composeRun_rows_error files comp oracle _ hne hrows
  rw [composeVideo_failure_outcome files comp oracle _ _ hrun]
  exact ⟨rfl, rfl, rfl⟩

def c4Buf : MediaBuffer :=
  ⟨[⟨0, some (1 / 30), 0, []⟩], []⟩

def c4Files : Storage :=
  [⟨"v1", "vid.mp4", c4Buf, 0, 0⟩]

def c4Row : TimelineRow :=
  { timeInClip := ⟨0, 1⟩, action := "a",
    videoAsset := some ⟨"v1", "vid.mp4", ⟨0, 1⟩⟩,
    audioAsset := some ⟨"a-miss", "", ⟨0, 1⟩, none⟩,
    imageOverlays := [], textOverlays := [] }

def c4Comp : VideoComposition :=
  { timeline := [c4Row], outputFileName := "out.mp4",
    targetWidth := none, targetHeight := none, targetFps := none }

theorem C4_witness :
    (composeVideo c4Files c4Comp []).result.success = false
    ∧ (composeVideo c4Files c4Comp []).result.error
        = some (notFoundMsg (jsRefStr "a-miss" ""))
    ∧ (composeVideo c4Files c4Comp []).published = false := by
  refine C4_missing_audio_asset_fails_hard c4Files c4Comp [] [] [] c4Row []
    ⟨"v1", "vid.mp4", ⟨0, 1⟩⟩ c4Buf c4Buf c4Buf ⟨"a-miss", "", ⟨0, 1⟩, none⟩
    rfl rfl rfl ?_ ?_ ?_ ?_ ?_ rfl ?_
  · with_unfolding_all decide
  · with_unfolding_all rfl
  · rfl
  · rfl
  · simp [c4Buf]
  · with_unfolding_all rfl

/-! ## Progress weighting and monotonicity (claim C6) -/

def c6Files : Storage :=
  [⟨"v1", "vid.mp4", ⟨[⟨0, some (1 / 30), 0, []⟩], []⟩, 0, 0⟩]

def c6Comp : VideoComposition :=
  { timeline := [{ timeInClip := ⟨0, 1⟩, action := "a",
                   videoAsset := some ⟨"v1", "vid.mp4", ⟨0, 1⟩⟩,
                   audioAsset := none, imageOverlays := [], textOverlays := [] }],
    outputFileName := "out.mp4", targetWidth := none, targetHeight := none,
    targetFps := none }

/-- C6 counterexample: on a one-row timeline whose extraction reports 1%
progress, the emitted percents are 0, 5, 10, 12, 10.6, 70, 85, 100 - the
"Extracting" announcement at base+2 = 12 is followed by the mapped trim
callback at 10.6, so the sequence passed to onProgress decreases. -/
theorem C6_counterexample :
    nonDecreasingQ (((composeVideo c6Files c6Comp [[1]]).events).map (fun e => e.2))
      = false := by
  with_unfolding_all rfl

theorem rowBase_succ (n i : ℕ) : rowBase n (i + 1) = rowBase n i + 60 / (n : ℚ) := by
  rcases eq_or_ne (n : ℚ) 0 with h | h
  · simp [rowBase, h]
  · simp only [rowBase]
    push_cast
    field_simp
    ring

theorem rowBase_mono (n i : ℕ) : rowBase n i ≤ rowBase n (i + 1) := by
  rw [rowBase_succ]
  have h : 0 ≤ 60 / (n : ℚ) := by positivity
  linarith

theorem ten_le_rowBase (n i : ℕ) : 10 ≤ rowBase n i := by
  rw [rowBase]
  have h : 0 ≤ ((i : ℚ) / (n : ℚ)) * 60 := by positivity
  linarith

theorem rowBase_le_seventy (n i : ℕ) (h : i ≤ n) : rowBase n i ≤ 70 := by
  rw [rowBase]
  rcases Nat.eq_zero_or_pos n with hn | hn
  · subst hn
    have hi : i = 0 := Nat.le_zero.mp h
    subst hi
    norm_num
  · have hq : (0 : ℚ) < n := by exact_mod_cast hn
    have hle : (i : ℚ) / (n : ℚ) ≤ 1 := by
      rw [div_le_one hq]
      exact_mod_cast h
    nlinarith

theorem trimEvent_bounds (n i p : ℕ) (hp : p ≤ 100) :
    rowBase n i ≤ (trimEvent n i p).2 ∧ (trimEvent n i p).2 ≤ rowBase n (i + 1) := by
  have h60 : (0 : ℚ) ≤ 60 / (n : ℚ) := by positivity
  have hp0 : (0 : ℚ) ≤ (p : ℚ) / 100 := by positivity
  have hp1 : (p : ℚ) / 100 ≤ 1 := by
    rw [div_le_one (by norm_num : (0 : ℚ) < 100)]
    exact_mod_cast hp
  constructor
  · show rowBase n i ≤ rowBase n i + ((p : ℚ) / 100) * (60 / (n : ℚ))
    nlinarith
  · show rowBase n i + ((p : ℚ) / 100) * (60 / (n : ℚ)) ≤ rowBase n (i + 1)
    rw [rowBase_succ]
    nlinarith

theorem processRow_events_band (files : Storage) (tw th : ℚ) (n i : ℕ)
    (row : TimelineRow) (rep : List ℕ) (hrep : ∀ p ∈ rep, p ≤ 100) :
    ∀ ev ∈ (processRow files tw th n i row rep).2,
      rowBase n i ≤ ev.2 ∧ ev.2 ≤ max (rowBase n i + 2) (rowBase n (i + 1)) := by
  intro ev hev
  have hb0 : rowBase n i ≤ rowBase n i + 2 := by linarith
  have hup0 : rowBase n i ≤ max (rowBase n i + 2) (rowBase n (i + 1)) :=
    le_trans hb0 (le_max_left _ _)
  have hup1 : rowBase n i + 2 ≤ max (rowBase n i + 2) (rowBase n (i + 1)) :=
    le_max_left _ _
  simp only [processRow] at hev
  split at hev
  · simp only [List.mem_singleton] at hev
    subst hev
    exact ⟨le_refl _, hup0⟩
  · split at hev
    · simp only [List.mem_singleton] at hev
      subst hev
      exact ⟨le_refl _, hup0⟩
    · split at hev
      · simp only [List.mem_cons, List.not_mem_nil, or_false] at hev
        rcases hev with hev | hev <;> subst hev
        · exact ⟨le_refl _, hup0⟩
        · exact ⟨hb0, hup1⟩
      · split at hev <;>
        · simp only [List.cons_append, List.nil_append, List.mem_cons,
            List.mem_map] at hev
          rcases hev with hev | hev | ⟨p, hpmem, hev⟩
          · subst hev
            exact ⟨le_refl _, hup0⟩
          · subst hev
            exact ⟨hb0, hup1⟩
          · subst hev
            obtain ⟨hl, hu⟩ := trimEvent_bounds n i p (hrep p hpmem)
            exact ⟨hl, le_trans hu (le_max_right _ _)⟩

theorem concatPct_bounds (len s : ℕ) (ts : ℚ) (hts : 0 ≤ ts) :
    0 ≤ concatPct len s ts ∧ concatPct len s ts ≤ 100 := by
  constructor
  · rw [concatPct]
    refine le_min (by norm_num) (Int.le_floor.mpr ?_)
    have hnum : (0 : ℚ) ≤ (s : ℚ) + ts := by positivity
    have hdiv : (0 : ℚ) ≤ ((s : ℚ) + ts) / (len : ℚ) :=
      div_nonneg hnum (by positivity)
    push_cast
    nlinarith
  · rw [concatPct]
    exact le_trans (min_le_left _ _) (by norm_num)

theorem concatLoop_pcts_bounds (segs : List MediaBuffer) :
    ∀ (len s : ℕ) (t : ℚ),
      (∀ b ∈ segs, ∀ f ∈ b.videoFrames, 0 ≤ f.timestamp) →
      ∀ p ∈ (concatLoop len s t segs).2.2, 0 ≤ p ∧ p ≤ 100 := by
  induction segs with
  | nil => intro len s t _ p hp; simp [concatLoop] at hp
  | cons seg rest ih =>
    intro len s t hts p hp
    simp only [concatLoop, List.mem_append] at hp
    rcases hp with hp | hp
    · simp only [concatSegmentPcts, List.mem_map] at hp
      obtain ⟨f, hf, hfp⟩ := hp
      subst hfp
      exact concatPct_bounds len s f.timestamp
        (hts seg (List.mem_cons_self seg rest) f hf)
    · exact ih len (s + 1) _ (fun b hb => hts b (List.mem_cons_of_mem seg hb)) p hp

theorem concatenateSegments_pcts_bounds (segs : List MediaBuffer)
    (out : MediaBuffer) (pcts : List ℤ)
    (h : concatenateSegments segs = Except.ok (out, pcts))
    (hts : ∀ b ∈ segs, ∀ f ∈ b.videoFrames, 0 ≤ f.timestamp) :
    ∀ p ∈ pcts, 0 ≤ p ∧ p ≤ 100 := by
  intro p hp
  match segs, h with
  | [a], h =>
    simp only [concatenateSegments] at h
    rw [Except.ok.injEq, Prod.mk.injEq] at h
    obtain ⟨-, hpcts⟩ := h
    rw [← hpcts] at hp
    simp at hp
  | a :: b :: rest, h =>
    simp only [concatenateSegments] at h
    rw [Except.ok.injEq, Prod.mk.injEq] at h
    obtain ⟨-, hpcts⟩ := h
    rw [← hpcts] at hp
    rw [List.mem_append] at hp
    rcases hp with hp | hp
    · exact concatLoop_pcts_bounds (a :: b :: rest) (a :: b :: rest).length 0 0 hts p hp
    · simp only [List.mem_singleton] at hp
      subst hp
      norm_num

theorem concatEvent_percent_bounds (p : ℤ) (h0 : 0 ≤ p) (h1 : p ≤ 100) :
    70 ≤ 70 + ((p : ℚ) / 100) * 15 ∧ 70 + ((p : ℚ) / 100) * 15 ≤ 85 := by
  have hq0 : (0 : ℚ) ≤ (p : ℚ) := by exact_mod_cast h0
  have hq1 : (p : ℚ) ≤ 100 := by exact_mod_cast h1
  constructor <;> nlinarith

theorem take_two_cons_cons {α : Type} (a b : α) (l : List α) :
    (a :: b :: l).take 2 = [a, b] := rfl

theorem composeRun_first_events (files : Storage) (comp : VideoComposition)
    (oracle : List (List ℕ)) :
    ∀ ev ∈ (composeRun files comp oracle).2.take 2, ev.2 = 0 ∨ ev.2 = 5 := by
  intro ev hev
  by_cases hemp : comp.timeline = []
  · simp only [composeRun, if_pos hemp] at hev
    simp only [List.take, List.mem_singleton] at hev
    subst hev
    exact Or.inl rfl
  · simp only [composeRun, if_neg hemp] at hev
    split at hev <;>
    [skip; split at hev] <;>
    · simp only [List.cons_append, List.nil_append, take_two_cons_cons,
        List.mem_cons, List.not_mem_nil, or_false] at hev
      rcases hev with hev | hev <;> subst hev
      · exact Or.inl rfl
      · exact Or.inr rfl

theorem composeRun_success_tail (files : Storage) (comp : VideoComposition)
    (oracle : List (List ℕ)) (r : MediaBuffer × ComposeData) (evs : List Event)
    (h : composeRun files comp oracle = (Except.ok r, evs)) :
    ∃ pre, evs = pre ++ [("Saving final video to storage", 85),
                        ("Video created successfully!", 100)] := by
  by_cases hemp : comp.timeline = []
  · simp only [composeRun, if_pos hemp, Prod.mk.injEq] at h
    exact absurd h.1 (by simp)
  · simp only [composeRun, if_neg hemp] at h
    split at h
    · rw [Prod.mk.injEq] at h
      exact absurd h.1 (by simp)
    · split at h
      · rw [Prod.mk.injEq] at h
        exact absurd h.1 (by simp)
      · rw [Prod.mk.injEq] at h
        exact ⟨_, h.2.symm⟩

/-- C6 amended: the stage weighting holds - the first two progress events
are 0 and 5 (validation), every event of row i lies in the band
[rowBase n i, max(rowBase n i + 2, rowBase n (i+1))] where rowBase n i =
10 + (i/n)*60 (the bases are non-decreasing, start at 10 and tile up to
70), every concatenation progress value maps into [70, 85], and a
successful run ends with the publishing events 85 and 100.  The full
sequence is however NOT monotone: the extraction announcement at base+2
can exceed the first extraction callbacks (see the counterexample). -/
theorem C6_progress_stage_bands :
    (∀ (files : Storage) (tw th : ℚ) (n i : ℕ) (row : TimelineRow) (rep : List ℕ),
       (∀ p ∈ rep, p ≤ 100) →
       ∀ ev ∈ (processRow files tw th n i row rep).2,
         rowBase n i ≤ ev.2 ∧ ev.2 ≤ max (rowBase n i + 2) (rowBase n (i + 1)))
  ∧ (∀ n i : ℕ, rowBase n i ≤ rowBase n (i + 1) ∧ 10 ≤ rowBase n i)
  ∧ (∀ n i : ℕ, i ≤ n → rowBase n i ≤ 70)
  ∧ (∀ (segs : List MediaBuffer) (out : MediaBuffer) (pcts : List ℤ),
       concatenateSegments segs = Except.ok (out, pcts) →
       (∀ b ∈ segs, ∀ f ∈ b.videoFrames, 0 ≤ f.timestamp) →
       ∀ p ∈ pcts, 0 ≤ p ∧ p ≤ 100)
  ∧ (∀ p : ℤ, 0 ≤ p → p ≤ 100 →
       70 ≤ 70 + ((p : ℚ) / 100) * 15 ∧ 70 + ((p : ℚ) / 100) * 15 ≤ 85)
  ∧ (∀ (files : Storage) (comp : VideoComposition) (oracle : List (List ℕ)),
       ∀ ev ∈ (composeRun files comp oracle).2.take 2, ev.2 = 0 ∨ ev.2 = 5)
  ∧ (∀ (files : Storage) (comp : VideoComposition) (oracle : List (List ℕ))
       (r : MediaBuffer × ComposeData) (evs : List Event),
       composeRun files comp oracle = (Except.ok r, evs) →
       ∃ pre, evs = pre ++ [("Saving final video to storage", 85),
                           ("Video created successfully!", 100)]) :=
  ⟨processRow_events_band,
   fun n i => ⟨rowBase_mono n i, ten_le_rowBase n i⟩,
   rowBase_le_seventy,
   concatenateSegments_pcts_bounds,
   concatEvent_percent_bounds,
   composeRun_first_events,
   composeRun_success_tail⟩

theorem C6_witness :
    (rowBase 1 0 ≤ (trimEvent 1 0 50).2
      ∧ (trimEvent 1 0 50).2 ≤ max (rowBase 1 0 + 2) (rowBase 1 1))
    ∧ (70 ≤ 70 + (((50 : ℤ) : ℚ) / 100) * 15
      ∧ 70 + (((50 : ℤ) : ℚ) / 100) * 15 ≤ 85) :=
  ⟨C6_progress_stage_bands.1 c6Files 1080 1920 1 0
      { timeInClip := ⟨0, 1⟩, action := "a",
        videoAsset := some ⟨"v1", "vid.mp4", ⟨0, 1⟩⟩,
        audioAsset := none, imageOverlays := [], textOverlays := [] } [50]
      (by intro p hp; simp at hp; omega)
      (trimEvent 1 0 50) (by with_unfolding_all decide),
   C6_progress_stage_bands.2.2.2.2.1 50 (by norm_num) (by norm_num)⟩

end ClipEditor
